import Mathlib

/-!
# stonePaper.go: the `SocietyIdentifier` chaincode

A shallow embedding of `src/stonePaper.go`.  The chaincode keeps one table,
`UserIdentity` (`User` key column, `Status` column), and reaches it only through
the `shim.ChaincodeStubInterface` handle passed into every entry point.

* Go `string` is `String`; a Go `error` is its message, `nil` is `none`.
* `[]byte` is `List UInt8`, `[]byte(s)` is the UTF-8 bytes of `s`.
* The stub is an interface in the source, so the entry points are embedded
  over an arbitrary implementation of it, with the ledger state threaded
  explicitly.
* `fmt.Printf` / `fmt.Println` only write to standard output and are dropped,
  except that their arguments are still evaluated (`row.Columns[1]` in `Query`).
-/

set_option autoImplicit false

namespace StonePaper

/-! ## Data passed across the stub interface -/

/-- A Go `error`, identified with its message. -/
abbrev Error := String

/-- A Go `[]byte`. -/
abbrev Bytes := List UInt8

/-- The conversion `[]byte(s)`. -/
def bytesOf (s : String) : Bytes := s.data.flatMap String.utf8EncodeChar

/-- The value held by a `shim.Column`: the source builds `Column_String_`
values and reads with `GetBytes`. -/
inductive ColumnValue where
  | String_ (s : String)
  | Bytes (b : Bytes)
  deriving DecidableEq

/-- A `shim.Column`. -/
structure Column where
  Value : ColumnValue
  deriving DecidableEq

/-- The getter `Column.GetBytes`: the bytes of a bytes-valued column, and the
empty slice for a column holding anything else. -/
def Column.GetBytes (c : Column) : Bytes :=
  match c.Value with
  | ColumnValue.Bytes b => b
  | ColumnValue.String_ _ => []

/-- A `shim.Row`. -/
structure Row where
  Columns : List Column
  deriving DecidableEq

/-- The column types named by the source. -/
inductive ColumnDefinition_Type where
  | STRING
  | BYTES
  deriving DecidableEq

/-- A `shim.ColumnDefinition`. -/
structure ColumnDefinition where
  Name : String
  Typ : ColumnDefinition_Type
  Key : Bool
  deriving DecidableEq

/-- The four table operations of `shim.ChaincodeStubInterface` that the
chaincode calls, over a ledger state `σ`.  Every operation returns the ledger
state it leaves behind next to its Go results. -/
structure ChaincodeStubInterface (σ : Type) where
  CreateTable : σ → String → List ColumnDefinition → σ × Option Error
  InsertRow : σ → String → Row → σ × Bool × Option Error
  DeleteRow : σ → String → List Column → σ × Option Error
  GetRow : σ → String → List Column → σ × Row × Option Error

/-- What an entry point hands back: the ledger state, the `[]byte` payload
(`none` is `nil`) and the `error` (`none` is `nil`). -/
abbrev Response (σ : Type) := σ × Option Bytes × Option Error

/-! ## The chaincode (`src/stonePaper.go`) -/

namespace SocietyIdentifier

/-- The column definitions `Init` passes to `CreateTable` (lines 46-49). -/
def userIdentityColumns : List ColumnDefinition :=
  [ ⟨"User", ColumnDefinition_Type.STRING, true⟩,
    ⟨"Status", ColumnDefinition_Type.STRING, false⟩ ]

/-- The column `shim.Column{Value: &shim.Column_String_{String_: s}}`. -/
def stringColumn (s : String) : Column := ⟨ColumnValue.String_ s⟩

/-- The row literal built by `create` and `update`: two string columns. -/
def userRow (user status : String) : Row :=
  ⟨[stringColumn user, stringColumn status]⟩

/-- `SocietyIdentifier.Init` (lines 39-57). -/
def Init {σ : Type} (stub : ChaincodeStubInterface σ) (st : σ)
    (_function : String) (args : List String) : Response σ :=
  if args.length ≠ 0 then
    (st, none, some "Incorrect number of arguments. Expecting 0")
  else
    match stub.CreateTable st "UserIdentity" userIdentityColumns with
    | (st1, some _) => (st1, none, some "Failed creating UserIdentity table.")
    | (st1, none) => (st1, none, none)

/-- `SocietyIdentifier.create` (lines 59-81). -/
def create {σ : Type} (stub : ChaincodeStubInterface σ) (st : σ)
    (args : List String) : Response σ :=
  match args with
  | [user] =>
    match stub.InsertRow st "UserIdentity" (userRow user "true") with
    | (st1, ok, err) =>
      if !ok && err == none then
        (st1, none, some "Asset was already created.")
      else
        (st1, none, err)
  | _ => (st, none, some "Incorrect number of arguments. Expecting 1")

/-- `SocietyIdentifier.update` (lines 83-124): `DeleteRow`, then `InsertRow`
whose boolean result is discarded. -/
def update {σ : Type} (stub : ChaincodeStubInterface σ) (st : σ)
    (args : List String) : Response σ :=
  match args with
  | [user, state] =>
    match stub.DeleteRow st "UserIdentity" [stringColumn user] with
    | (st1, some _) => (st1, none, some "Failed deleting row.")
    | (st1, none) =>
      match stub.InsertRow st1 "UserIdentity" (userRow user state) with
      | (st2, _, some _) => (st2, none, some "Failed inserting row.")
      | (st2, _, none) => (st2, none, none)
  | _ => (st, none, some "Incorrect number of arguments. Expecting 2")

/-- `SocietyIdentifier.Invoke` (lines 133-145). -/
def Invoke {σ : Type} (stub : ChaincodeStubInterface σ) (st : σ)
    (function : String) (args : List String) : Response σ :=
  if function = "create" then
    create stub st args
  else if function = "update" then
    update stub st args
  else
    (st, none, some "Received unknown function invocation")

/-- `SocietyIdentifier.Query` (lines 151-183).  The result is `Except.error`
when the Go code panics: the only place is the index `row.Columns[1]`,
evaluated as an argument of the last `Printf`. -/
def Query {σ : Type} (stub : ChaincodeStubInterface σ) (st : σ)
    (function : String) (args : List String) : Except String (Response σ) :=
  if function ≠ "query" then
    Except.ok (st, none, some ("Invalid query function name. Expecting 'query' but found '"
      ++ function ++ "'"))
  else
    match args with
    | [asset] =>
      match stub.GetRow st "UserIdentity" [stringColumn asset] with
      | (st1, _, some err) =>
        Except.ok (st1, none,
          some ("Failed retriving user [" ++ asset ++ "]: [" ++ err ++ "]"))
      | (st1, row, none) =>
        match row.Columns.get? 1 with
        | none => Except.error "runtime error: index out of range"
        | some col =>
          let _logged := col.GetBytes
          Except.ok (st1, some (bytesOf "This is a Test"), none)
    | _ =>
      Except.ok (st, none,
        some "Incorrect number of arguments. Expecting name of an user to query")

end SocietyIdentifier

/-! ## The state table behind the stub

The `shim` package is an external library and is not part of the repository;
the table it implements is modelled from the specification (section 4.1), except
for the lookup of a key with no record, which follows the library: an empty row
and a nil error. -/

/-- Modelled from the spec: the single relation behind the absent `shim` package
(section 3, Table): its name, its schema and its rows. -/
structure Table where
  name : String
  columnDefinitions : List ColumnDefinition
  rows : List Row
  deriving DecidableEq

/-- Modelled from the spec: the store behind the absent `shim` package; `none`
until the schema has been defined (section 3: the table exists only after
initialization). -/
abbrev Store := Option Table

/-- Modelled from the spec: the lower-level failure, if any, that the storage
layer of the absent `shim` package raises in each of the four operations
(`StoreError` / `SchemaError`, sections 4.1 and 7). -/
structure Faults where
  createTable : Option Error
  insertRow : Option Error
  deleteRow : Option Error
  getRow : Option Error
  deriving DecidableEq

/-- The storage layer raising no failure. -/
def noFaults : Faults := ⟨none, none, none, none⟩

/-- Modelled from the spec: the key of a row under a schema, computed by the
absent `shim` package: the values of its key columns (section 4.1: `user` is the
key column). -/
def rowKey (defs : List ColumnDefinition) (row : Row) : List Column :=
  ((defs.zip row.Columns).filter (fun p => p.1.Key)).map (fun p => p.2)

/-- Modelled from the spec: `DefineSchema` of the State Table, the `CreateTable`
of the absent `shim` package.  It creates the relation with no rows, and fails
when the relation already exists or the store rejects the definition. -/
def specCreateTable (flt : Faults) (st : Store) (name : String)
    (defs : List ColumnDefinition) : Store × Option Error :=
  match flt.createTable with
  | some e => (st, some e)
  | none =>
    match st with
    | some _ => (st, some "SchemaError: the relation already exists")
    | none => (some ⟨name, defs, []⟩, none)

/-- Modelled from the spec: `Insert` of the State Table, the `InsertRow` of the
absent `shim` package.  A guarded insert: when the key is present nothing is
written and the duplicate is reported as `ok = false` with a nil error (the
shape `create` tests for on line 74); a lower-level failure is an error; before
initialization the operation fails. -/
def specInsertRow (flt : Faults) (st : Store) (name : String) (row : Row) :
    Store × Bool × Option Error :=
  match flt.insertRow with
  | some e => (st, false, some e)
  | none =>
    match st with
    | none => (st, false, some "StoreError: table not found")
    | some t =>
      if t.name ≠ name then (st, false, some "StoreError: table not found")
      else if t.rows.any (fun r => rowKey t.columnDefinitions r
          = rowKey t.columnDefinitions row) then
        (st, false, none)
      else
        (some ⟨t.name, t.columnDefinitions, t.rows ++ [row]⟩, true, none)

/-- Modelled from the spec: the delete step of `Replace`, the `DeleteRow` of the
absent `shim` package.  It removes any existing record for the key and is a
no-op when there is none. -/
def specDeleteRow (flt : Faults) (st : Store) (name : String) (key : List Column) :
    Store × Option Error :=
  match flt.deleteRow with
  | some e => (st, some e)
  | none =>
    match st with
    | none => (st, some "StoreError: table not found")
    | some t =>
      if t.name ≠ name then (st, some "StoreError: table not found")
      else
        (some ⟨t.name, t.columnDefinitions,
          t.rows.filter (fun r => rowKey t.columnDefinitions r ≠ key)⟩, none)

/-- Modelled from the spec: `Get` of the State Table, the `GetRow` of the absent
`shim` package: a point lookup that returns the record for the key, or an error
on a lower-level failure or before initialization.  For a key with no record it
answers as the `shim` library the program is linked against does, with an empty
row and a nil error, not with the `NotFoundError` of section 4.1. -/
def specGetRow (flt : Faults) (st : Store) (name : String) (key : List Column) :
    Store × Row × Option Error :=
  match flt.getRow with
  | some e => (st, ⟨[]⟩, some e)
  | none =>
    match st with
    | none => (st, ⟨[]⟩, some "StoreError: table not found")
    | some t =>
      if t.name ≠ name then (st, ⟨[]⟩, some "StoreError: table not found")
      else
        match t.rows.find? (fun r => rowKey t.columnDefinitions r = key) with
        | some r => (st, r, none)
        | none => (st, ⟨[]⟩, none)

/-- Modelled from the spec: the State Table as an implementation of the stub
interface, the storage layer raising the failures `flt`. -/
def specStub (flt : Faults) : ChaincodeStubInterface Store :=
  ⟨specCreateTable flt, specInsertRow flt, specDeleteRow flt, specGetRow flt⟩

/-! ## Observations on the store -/

/-- The store holds the `UserIdentity` relation with the schema `Init` defines. -/
def Initialized (st : Store) : Prop :=
  ∃ rows, st = some ⟨"UserIdentity", SocietyIdentifier.userIdentityColumns, rows⟩

/-- The initialized store with the given rows. -/
def userIdentity (rows : List Row) : Store :=
  some ⟨"UserIdentity", SocietyIdentifier.userIdentityColumns, rows⟩

/-- The rows of the store. -/
def storeRows (st : Store) : List Row :=
  match st with
  | some t => t.rows
  | none => []

/-- The records the store holds for user `u`: the rows whose key is `u`. -/
def recordsOf (st : Store) (u : String) : List Row :=
  match st with
  | some t => t.rows.filter
      (fun r => rowKey t.columnDefinitions r = [SocietyIdentifier.stringColumn u])
  | none => []

/-- The store is initialized and each of its rows has exactly two columns. -/
def TwoColumns (st : Store) : Prop :=
  ∃ rows, st = userIdentity rows ∧ ∀ r ∈ rows, r.Columns.length = 2

/-! ## Recording the storage operations -/

/-- A call made on the stub. -/
inductive StubCall where
  | CreateTable (name : String) (defs : List ColumnDefinition)
  | InsertRow (name : String) (row : Row)
  | DeleteRow (name : String) (key : List Column)
  | GetRow (name : String) (key : List Column)
  deriving DecidableEq

/-- The stub `stub` with every call appended to a log kept next to the state. -/
def traced {σ : Type} (stub : ChaincodeStubInterface σ) :
    ChaincodeStubInterface (σ × List StubCall) :=
  ⟨fun s name defs =>
      let r := stub.CreateTable s.1 name defs
      ((r.1, s.2 ++ [StubCall.CreateTable name defs]), r.2),
   fun s name row =>
      let r := stub.InsertRow s.1 name row
      ((r.1, s.2 ++ [StubCall.InsertRow name row]), r.2),
   fun s name key =>
      let r := stub.DeleteRow s.1 name key
      ((r.1, s.2 ++ [StubCall.DeleteRow name key]), r.2),
   fun s name key =>
      let r := stub.GetRow s.1 name key
      ((r.1, s.2 ++ [StubCall.GetRow name key]), r.2)⟩

/-- The store after a sequence of `Invoke` calls, each with the failures the
storage layer raises during it. -/
def runInvokes (calls : List (Faults × String × List String)) (st : Store) : Store :=
  calls.foldl (fun s c => (SocietyIdentifier.Invoke (specStub c.1) s c.2.1 c.2.2).1) st

/-! ## Properties that hold over every implementation of the stub -/

open SocietyIdentifier

/-- With an argument count other than one, `create` returns its argument error
and hands back the state it was given. -/
theorem create_wrong_arity {σ : Type} (stub : ChaincodeStubInterface σ) (st : σ)
    (args : List String) (h : args.length ≠ 1) :
    create stub st args = (st, none, some "Incorrect number of arguments. Expecting 1") := by
  match args, h with
  | [], _ => rfl
  | [_], h => exact absurd rfl h
  | _ :: _ :: _, _ => rfl

/-- With an argument count other than two, `update` returns its argument error
and hands back the state it was given. -/
theorem update_wrong_arity {σ : Type} (stub : ChaincodeStubInterface σ) (st : σ)
    (args : List String) (h : args.length ≠ 2) :
    update stub st args = (st, none, some "Incorrect number of arguments. Expecting 2") := by
  match args, h with
  | [], _ => rfl
  | [_], _ => rfl
  | [_, _], h => exact absurd rfl h
  | _ :: _ :: _ :: _, _ => rfl

/-- With an argument count other than one, `Query` returns its argument error
and hands back the state it was given. -/
theorem Query_wrong_arity {σ : Type} (stub : ChaincodeStubInterface σ) (st : σ)
    (args : List String) (h : args.length ≠ 1) :
    Query stub st "query" args = Except.ok (st, none,
      some "Incorrect number of arguments. Expecting name of an user to query") := by
  match args, h with
  | [], _ => rfl
  | [_], h => exact absurd rfl h
  | _ :: _ :: _, _ => rfl

/-- Whatever the stub, a payload returned by `Query` is the literal of line 182. -/
theorem Query_payload_is_literal {σ : Type} (stub : ChaincodeStubInterface σ) (st st1 : σ)
    (function : String) (args : List String) (p : Bytes) (e : Option Error)
    (h : Query stub st function args = Except.ok (st1, some p, e)) :
    p = bytesOf "This is a Test" := by
  unfold Query at h
  split at h
  · simp at h
  · split at h
    · split at h
      · simp at h
      · split at h
        · simp at h
        · simp at h
          exact h.2.1.symm
    · simp at h

/-- Whatever the stub, when the row lookup returns a nil error and a row with
fewer than two columns, `Query` panics on `row.Columns[1]`: the source has no
guard between the lookup and the index. -/
theorem Query_panics_on_short_row {σ : Type} (stub : ChaincodeStubInterface σ) (st st1 : σ)
    (asset : String) (row : Row)
    (hget : stub.GetRow st "UserIdentity" [stringColumn asset] = (st1, row, none))
    (hlen : row.Columns.length < 2) :
    Query stub st "query" [asset] = Except.error "runtime error: index out of range" := by
  have hnone : row.Columns.get? 1 = none := List.get?_eq_none.mpr (by omega)
  simp only [Query, ne_eq, not_true_eq_false, if_false, hget, hnone]

/-- C5: arity enforcement.  Over every stub, ledger state, call log and argument
list: `Invoke "create"` with other than one argument, `Invoke "update"` with
other than two and `Query "query"` with other than one each return a nil payload
with a non-nil argument error, record no storage call and leave the state as it
was. -/
theorem C5_arity_enforcement {σ : Type} (stub : ChaincodeStubInterface σ) (st : σ)
    (log : List StubCall) (args : List String) :
    (args.length ≠ 1 →
      Invoke (traced stub) (st, log) "create" args
        = ((st, log), none, some "Incorrect number of arguments. Expecting 1")) ∧
    (args.length ≠ 2 →
      Invoke (traced stub) (st, log) "update" args
        = ((st, log), none, some "Incorrect number of arguments. Expecting 2")) ∧
    (args.length ≠ 1 →
      Query (traced stub) (st, log) "query" args
        = Except.ok ((st, log), none,
            some "Incorrect number of arguments. Expecting name of an user to query")) := by
  refine ⟨fun h => ?_, fun h => ?_, fun h => ?_⟩
  · simp only [Invoke, if_true]
    exact create_wrong_arity _ _ _ h
  · have hne : ¬ ("update" = "create") := by decide
    simp only [Invoke, if_neg hne, if_true]
    exact update_wrong_arity _ _ _ h
  · exact Query_wrong_arity _ _ _ h

/-- C5 at a concrete input: the empty argument list on an empty initialized
table. -/
theorem C5_arity_enforcement_witness :
    Invoke (traced (specStub noFaults)) (userIdentity [], []) "create" []
        = ((userIdentity [], []), none, some "Incorrect number of arguments. Expecting 1") ∧
    Invoke (traced (specStub noFaults)) (userIdentity [], []) "update" []
        = ((userIdentity [], []), none, some "Incorrect number of arguments. Expecting 2") ∧
    Query (traced (specStub noFaults)) (userIdentity [], []) "query" []
        = Except.ok ((userIdentity [], []), none,
            some "Incorrect number of arguments. Expecting name of an user to query") :=
  ⟨(C5_arity_enforcement (specStub noFaults) (userIdentity []) [] []).1 (by decide),
   (C5_arity_enforcement (specStub noFaults) (userIdentity []) [] []).2.1 (by decide),
   (C5_arity_enforcement (specStub noFaults) (userIdentity []) [] []).2.2 (by decide)⟩

/-- C6: unknown names.  Over every stub, ledger state, call log and argument
list: `Invoke` with a name other than `create` and `update` returns a nil
payload and the unknown-invocation error, `Query` with a name other than `query`
returns a nil payload and the invalid-query-name error; neither records a
storage call nor changes the state. -/
theorem C6_unknown_name {σ : Type} (stub : ChaincodeStubInterface σ) (st : σ)
    (log : List StubCall) (function : String) (args : List String) :
    (function ≠ "create" → function ≠ "update" →
      Invoke (traced stub) (st, log) function args
        = ((st, log), none, some "Received unknown function invocation")) ∧
    (function ≠ "query" →
      Query (traced stub) (st, log) function args
        = Except.ok ((st, log), none,
            some ("Invalid query function name. Expecting 'query' but found '"
              ++ function ++ "'"))) := by
  refine ⟨fun hc hu => ?_, fun hq => ?_⟩
  · simp only [Invoke, if_neg hc, if_neg hu]
  · simp only [Query, if_pos hq]

/-- C6 at a concrete input: the names `transfer` and `create` (as a query). -/
theorem C6_unknown_name_witness :
    Invoke (traced (specStub noFaults)) (userIdentity [], []) "transfer" ["alice"]
        = ((userIdentity [], []), none, some "Received unknown function invocation") ∧
    Query (traced (specStub noFaults)) (userIdentity [], []) "transfer" ["alice"]
        = Except.ok ((userIdentity [], []), none,
            some ("Invalid query function name. Expecting 'query' but found '"
              ++ "transfer" ++ "'")) :=
  ⟨(C6_unknown_name (specStub noFaults) (userIdentity []) [] "transfer" ["alice"]).1
      (by decide) (by decide),
   (C6_unknown_name (specStub noFaults) (userIdentity []) [] "transfer" ["alice"]).2
      (by decide)⟩

/-- C9, as stated, fails: when the schema definition fails with the error
`StoreError`, `Init` returns another error, the fixed text of line 51. -/
theorem C9_init_error_not_verbatim :
    ((specStub ⟨some "StoreError", none, none, none⟩).CreateTable none
        "UserIdentity" userIdentityColumns).2 = some "StoreError" ∧
    (Init (specStub ⟨some "StoreError", none, none, none⟩) none "init" []).2
        = (none, some "Failed creating UserIdentity table.") ∧
    (Init (specStub ⟨some "StoreError", none, none, none⟩) none "init" []).2.2
        ≠ some "StoreError" := by
  decide

/-- C9, amended: over every stub, `Init` with no argument makes exactly one
storage call, `CreateTable` of `UserIdentity` with the columns `User` (key) and
`Status`; its payload is nil; its error is nil when the definition succeeds and
is the fixed error `Failed creating UserIdentity table.` when the definition
fails, whatever the error it failed with. -/
theorem C9_init_fixed_error {σ : Type} (stub : ChaincodeStubInterface σ) (st : σ)
    (log : List StubCall) (function : String) :
    Init (traced stub) (st, log) function []
      = (((stub.CreateTable st "UserIdentity" userIdentityColumns).1,
          log ++ [StubCall.CreateTable "UserIdentity" userIdentityColumns]),
         none,
         (stub.CreateTable st "UserIdentity" userIdentityColumns).2.map
           (fun _ => "Failed creating UserIdentity table.")) := by
  simp only [Init, traced]
  cases h : (stub.CreateTable st "UserIdentity" userIdentityColumns).2 <;> simp [h]

/-- C1, the code at a failing input: on an empty initialized table, `create` of
`alice` and two `update`s of `alice` succeed and the table holds the status
`suspended` for `alice`, yet `Query` returns the bytes of `This is a Test`, which
are not the bytes of `suspended`. -/
theorem C1_query_returns_placeholder :
    Invoke (specStub noFaults) (userIdentity []) "create" ["alice"]
        = (userIdentity [userRow "alice" "true"], none, none) ∧
    Invoke (specStub noFaults) (userIdentity [userRow "alice" "true"]) "update"
        ["alice", "active"]
        = (userIdentity [userRow "alice" "active"], none, none) ∧
    Invoke (specStub noFaults) (userIdentity [userRow "alice" "active"]) "update"
        ["alice", "suspended"]
        = (userIdentity [userRow "alice" "suspended"], none, none) ∧
    Query (specStub noFaults) (userIdentity [userRow "alice" "suspended"]) "query" ["alice"]
        = Except.ok (userIdentity [userRow "alice" "suspended"],
            some (bytesOf "This is a Test"), none) ∧
    bytesOf "This is a Test" ≠ bytesOf "suspended" := by
  refine ⟨by decide, by decide, by decide, by rfl, by decide⟩

/-! ## The state table: auxiliary facts -/

theorem stringColumn_inj (u v : String) : stringColumn u = stringColumn v ↔ u = v := by
  simp [stringColumn]

theorem rowKey_userRow (u s : String) :
    rowKey userIdentityColumns (userRow u s) = [stringColumn u] := rfl

theorem recordsOf_userIdentity (rows : List Row) (u : String) :
    recordsOf (userIdentity rows) u
      = rows.filter (fun r => rowKey userIdentityColumns r = [stringColumn u]) := rfl

theorem specDeleteRow_userIdentity (flt : Faults) (rows : List Row) (key : List Column)
    (hd : flt.deleteRow = none) :
    specDeleteRow flt (userIdentity rows) "UserIdentity" key
      = (userIdentity (rows.filter (fun r => rowKey userIdentityColumns r ≠ key)), none) := by
  simp [specDeleteRow, hd, userIdentity]

theorem specInsertRow_absent (flt : Faults) (rows : List Row) (row : Row)
    (hi : flt.insertRow = none)
    (habs : rows.filter (fun r => rowKey userIdentityColumns r
        = rowKey userIdentityColumns row) = []) :
    specInsertRow flt (userIdentity rows) "UserIdentity" row
      = (userIdentity (rows ++ [row]), true, none) := by
  have hany : rows.any (fun r => decide (rowKey userIdentityColumns r
      = rowKey userIdentityColumns row)) = false := by
    rw [List.any_eq_false]
    intro r hr hk
    have : r ∈ rows.filter (fun r => rowKey userIdentityColumns r
        = rowKey userIdentityColumns row) := List.mem_filter.mpr ⟨hr, hk⟩
    rw [habs] at this
    exact absurd this (List.not_mem_nil _)
  simp [specInsertRow, hi, userIdentity, hany]

theorem specInsertRow_present (flt : Faults) (rows : List Row) (row : Row)
    (hi : flt.insertRow = none)
    (hpres : rows.filter (fun r => rowKey userIdentityColumns r
        = rowKey userIdentityColumns row) ≠ []) :
    specInsertRow flt (userIdentity rows) "UserIdentity" row
      = (userIdentity rows, false, none) := by
  have hany : rows.any (fun r => decide (rowKey userIdentityColumns r
      = rowKey userIdentityColumns row)) = true := by
    obtain ⟨r, hr⟩ := List.exists_mem_of_ne_nil _ hpres
    rw [List.any_eq_true]
    exact ⟨r, (List.mem_filter.mp hr).1, (List.mem_filter.mp hr).2⟩
  simp [specInsertRow, hi, userIdentity, hany]

theorem specInsertRow_fault (flt : Faults) (st : Store) (name : String) (row : Row)
    (e : Error) (hi : flt.insertRow = some e) :
    specInsertRow flt st name row = (st, false, some e) := by
  simp [specInsertRow, hi]

theorem filter_key_filter_ne (rows : List Row) (u : String) :
    (rows.filter (fun r => rowKey userIdentityColumns r ≠ [stringColumn u])).filter
      (fun r => rowKey userIdentityColumns r = [stringColumn u]) = [] := by
  rw [List.filter_eq_nil_iff]
  intro r hr
  have := (List.mem_filter.mp hr).2
  simpa using this

theorem filter_other_filter_ne (rows : List Row) (u v : String) (hv : v ≠ u) :
    (rows.filter (fun r => rowKey userIdentityColumns r ≠ [stringColumn u])).filter
      (fun r => rowKey userIdentityColumns r = [stringColumn v])
    = rows.filter (fun r => rowKey userIdentityColumns r = [stringColumn v]) := by
  rw [List.filter_filter]
  apply List.filter_congr
  intro r _
  by_cases h : rowKey userIdentityColumns r = [stringColumn v]
  · have hne : ¬ ([stringColumn v] = [stringColumn u]) := by
      simpa [stringColumn_inj] using hv
    simp [h, hne]
  · simp [h]

theorem recordsOf_append_same (rows : List Row) (u s : String) :
    recordsOf (userIdentity (rows ++ [userRow u s])) u
      = recordsOf (userIdentity rows) u ++ [userRow u s] := by
  simp [recordsOf_userIdentity, List.filter_append, rowKey_userRow]

theorem recordsOf_append_other (rows : List Row) (u v s : String) (hv : v ≠ u) :
    recordsOf (userIdentity (rows ++ [userRow u s])) v = recordsOf (userIdentity rows) v := by
  have hne : ¬ (u = v) := fun h => hv h.symm
  simp [recordsOf_userIdentity, List.filter_append, rowKey_userRow, stringColumn_inj, hne]

/-- The result of `update` on an initialized table when neither storage step
fails. -/
theorem update_userIdentity (flt : Faults) (rows : List Row) (u s : String)
    (hd : flt.deleteRow = none) (hi : flt.insertRow = none) :
    update (specStub flt) (userIdentity rows) [u, s]
      = (userIdentity (rows.filter
            (fun r => rowKey userIdentityColumns r ≠ [stringColumn u]) ++ [userRow u s]),
          none, none) := by
  have hdel := specDeleteRow_userIdentity flt rows [stringColumn u] hd
  have hins := specInsertRow_absent flt
    (rows.filter (fun r => rowKey userIdentityColumns r ≠ [stringColumn u]))
    (userRow u s) hi (by rw [rowKey_userRow]; exact filter_key_filter_ne rows u)
  simp only [update, specStub, hdel, hins]

/-- C3: `update` is an unconditional upsert.  On every initialized table, whether
or not it holds a record for `u`, when the storage layer fails neither the
delete nor the insert, `Invoke "update" [u, s]` returns `(nil, nil)`, the
resulting table is initialized and holds exactly one record for `u`, the row of
the two string columns `u` and `s`, and the records of every other user are as
before. -/
theorem C3_update_is_upsert (flt : Faults) (rows : List Row) (u s : String)
    (hd : flt.deleteRow = none) (hi : flt.insertRow = none) :
    (Invoke (specStub flt) (userIdentity rows) "update" [u, s]).2 = (none, none) ∧
    Initialized (Invoke (specStub flt) (userIdentity rows) "update" [u, s]).1 ∧
    recordsOf (Invoke (specStub flt) (userIdentity rows) "update" [u, s]).1 u
      = [Row.mk [Column.mk (ColumnValue.String_ u), Column.mk (ColumnValue.String_ s)]] ∧
    ∀ v, v ≠ u →
      recordsOf (Invoke (specStub flt) (userIdentity rows) "update" [u, s]).1 v
        = recordsOf (userIdentity rows) v := by
  have hne : ¬ ("update" = "create") := by decide
  have hinv : Invoke (specStub flt) (userIdentity rows) "update" [u, s]
      = update (specStub flt) (userIdentity rows) [u, s] := by
    simp only [Invoke, if_neg hne, if_true]
  rw [hinv, update_userIdentity flt rows u s hd hi]
  refine ⟨rfl, ⟨_, rfl⟩, ?_, fun v hv => ?_⟩
  · rw [recordsOf_append_same, recordsOf_userIdentity, filter_key_filter_ne]
    rfl
  · rw [recordsOf_append_other _ _ _ _ hv, recordsOf_userIdentity,
      filter_other_filter_ne rows u v hv, recordsOf_userIdentity]

/-- C3 at a concrete input: a table already holding `alice` and `bob`. -/
theorem C3_update_is_upsert_witness :
    (Invoke (specStub noFaults)
        (userIdentity [userRow "alice" "true", userRow "bob" "true"])
        "update" ["alice", "suspended"]).2 = (none, none) ∧
    Initialized (Invoke (specStub noFaults)
        (userIdentity [userRow "alice" "true", userRow "bob" "true"])
        "update" ["alice", "suspended"]).1 ∧
    recordsOf (Invoke (specStub noFaults)
        (userIdentity [userRow "alice" "true", userRow "bob" "true"])
        "update" ["alice", "suspended"]).1 "alice"
      = [Row.mk [Column.mk (ColumnValue.String_ "alice"),
          Column.mk (ColumnValue.String_ "suspended")]] ∧
    ∀ v, v ≠ "alice" →
      recordsOf (Invoke (specStub noFaults)
        (userIdentity [userRow "alice" "true", userRow "bob" "true"])
        "update" ["alice", "suspended"]).1 v
        = recordsOf (userIdentity [userRow "alice" "true", userRow "bob" "true"]) v :=
  C3_update_is_upsert noFaults [userRow "alice" "true", userRow "bob" "true"]
    "alice" "suspended" rfl rfl

/-- The result of `create` on an initialized table holding no record for the
user, when the insert does not fail. -/
theorem create_userIdentity_absent (flt : Faults) (rows : List Row) (u : String)
    (hi : flt.insertRow = none) (habs : recordsOf (userIdentity rows) u = []) :
    create (specStub flt) (userIdentity rows) [u]
      = (userIdentity (rows ++ [userRow u "true"]), none, none) := by
  have hins := specInsertRow_absent flt rows (userRow u "true") hi
    (by rw [rowKey_userRow]; exact habs)
  simp [create, specStub, hins]

/-- C7, as stated, fails: `alice` has no record in the empty initialized table,
yet when the storage layer fails the insert with `StoreError`, `Invoke "create"`
returns that error (line 80) and the table still holds no record for `alice`. -/
theorem C7_create_surfaces_insert_fault :
    recordsOf (userIdentity []) "alice" = [] ∧
    Invoke (specStub ⟨none, some "StoreError", none, none⟩) (userIdentity []) "create"
        ["alice"] = (userIdentity [], none, some "StoreError") ∧
    (Invoke (specStub ⟨none, some "StoreError", none, none⟩) (userIdentity []) "create"
        ["alice"]).2 ≠ (none, none) := by
  decide

/-- C7, amended: on every initialized table holding no record for `u`, when the
insert does not fail at the storage layer, `Invoke "create" [u]` returns
`(nil, nil)` and the resulting table is the former one with one row added, the
row of the two string columns `u` and `"true"`: the table holds exactly that
record for `u`, and the records of every other user are as before. -/
theorem C7_create_inserts_true (flt : Faults) (rows : List Row) (u : String)
    (hi : flt.insertRow = none) (habs : recordsOf (userIdentity rows) u = []) :
    Invoke (specStub flt) (userIdentity rows) "create" [u]
      = (userIdentity (rows ++
          [Row.mk [Column.mk (ColumnValue.String_ u), Column.mk (ColumnValue.String_ "true")]]),
        none, none) ∧
    recordsOf (Invoke (specStub flt) (userIdentity rows) "create" [u]).1 u
      = [Row.mk [Column.mk (ColumnValue.String_ u), Column.mk (ColumnValue.String_ "true")]] ∧
    ∀ v, v ≠ u →
      recordsOf (Invoke (specStub flt) (userIdentity rows) "create" [u]).1 v
        = recordsOf (userIdentity rows) v := by
  have hinv : Invoke (specStub flt) (userIdentity rows) "create" [u]
      = (userIdentity (rows ++ [userRow u "true"]), none, none) := by
    simp only [Invoke, if_true]
    exact create_userIdentity_absent flt rows u hi habs
  rw [hinv]
  refine ⟨rfl, ?_, fun v hv => recordsOf_append_other rows u v "true" hv⟩
  rw [recordsOf_append_same, habs]
  rfl

/-- C7, amended, at a concrete input: `alice` created in a table holding only
`bob`. -/
theorem C7_create_inserts_true_witness :
    Invoke (specStub noFaults) (userIdentity [userRow "bob" "away"]) "create" ["alice"]
      = (userIdentity ([userRow "bob" "away"] ++
          [Row.mk [Column.mk (ColumnValue.String_ "alice"),
            Column.mk (ColumnValue.String_ "true")]]),
        none, none) ∧
    recordsOf (Invoke (specStub noFaults) (userIdentity [userRow "bob" "away"]) "create"
        ["alice"]).1 "alice"
      = [Row.mk [Column.mk (ColumnValue.String_ "alice"),
          Column.mk (ColumnValue.String_ "true")]] ∧
    ∀ v, v ≠ "alice" →
      recordsOf (Invoke (specStub noFaults) (userIdentity [userRow "bob" "away"]) "create"
        ["alice"]).1 v
        = recordsOf (userIdentity [userRow "bob" "away"]) v :=
  C7_create_inserts_true noFaults [userRow "bob" "away"] "alice" rfl (by decide)

/-- C2: on every initialized table, if `Invoke "create" [u]` succeeds, then the
`Invoke "create" [u]` that follows it returns a nil payload and a non-nil error,
which is `Asset was already created.` unless the storage layer itself fails, and
leaves the table exactly as the first `create` left it: the table still holds
the single record `(u, "true")` for `u`. -/
theorem C2_second_create_fails (flt1 flt2 : Faults) (rows : List Row) (u : String)
    (st1 : Store)
    (h : Invoke (specStub flt1) (userIdentity rows) "create" [u] = (st1, none, none)) :
    (∃ e, Invoke (specStub flt2) st1 "create" [u] = (st1, none, some e)) ∧
    (flt2.insertRow = none →
      Invoke (specStub flt2) st1 "create" [u]
        = (st1, none, some "Asset was already created.")) ∧
    recordsOf st1 u = [userRow u "true"] := by
  simp only [Invoke, if_true] at h ⊢
  have hst1 : flt1.insertRow = none ∧ recordsOf (userIdentity rows) u = [] ∧
      st1 = userIdentity (rows ++ [userRow u "true"]) := by
    cases hf : flt1.insertRow with
    | some e =>
      have := specInsertRow_fault flt1 (userIdentity rows) "UserIdentity"
        (userRow u "true") e hf
      simp [create, specStub, this] at h
    | none =>
      by_cases habs : recordsOf (userIdentity rows) u = []
      · rw [create_userIdentity_absent flt1 rows u hf habs] at h
        simp only [Prod.mk.injEq, and_true] at h
        exact ⟨rfl, habs, h.symm⟩
      · have := specInsertRow_present flt1 rows (userRow u "true") hf
          (by rw [rowKey_userRow]; exact habs)
        simp [create, specStub, this] at h
  obtain ⟨_, habs, rfl⟩ := hst1
  have hrec : recordsOf (userIdentity (rows ++ [userRow u "true"])) u = [userRow u "true"] := by
    rw [recordsOf_append_same, habs]
    rfl
  have hpres : ∀ (_ : flt2.insertRow = none),
      create (specStub flt2) (userIdentity (rows ++ [userRow u "true"])) [u]
        = (userIdentity (rows ++ [userRow u "true"]), none,
            some "Asset was already created.") := by
    intro hf
    have := specInsertRow_present flt2 (rows ++ [userRow u "true"]) (userRow u "true") hf
      (by
        rw [rowKey_userRow]
        have := hrec
        rw [recordsOf_userIdentity] at this
        rw [this]
        simp)
    simp [create, specStub, this]
  refine ⟨?_, hpres, hrec⟩
  cases hf : flt2.insertRow with
  | some e =>
    have := specInsertRow_fault flt2 (userIdentity (rows ++ [userRow u "true"]))
      "UserIdentity" (userRow u "true") e hf
    exact ⟨e, by simp [create, specStub, this]⟩
  | none => exact ⟨_, hpres hf⟩

/-- C2 at a concrete input: `alice` created twice on an empty table. -/
theorem C2_second_create_fails_witness :
    (∃ e, Invoke (specStub noFaults) (userIdentity [userRow "alice" "true"]) "create"
        ["alice"] = (userIdentity [userRow "alice" "true"], none, some e)) ∧
    (noFaults.insertRow = none →
      Invoke (specStub noFaults) (userIdentity [userRow "alice" "true"]) "create" ["alice"]
        = (userIdentity [userRow "alice" "true"], none,
            some "Asset was already created.")) ∧
    recordsOf (userIdentity [userRow "alice" "true"]) "alice" = [userRow "alice" "true"] :=
  C2_second_create_fails noFaults noFaults [] "alice" (userIdentity [userRow "alice" "true"])
    (by decide)

/-- On every initialized table holding no record for `u`, when the lookup does
not fail at the storage layer, it answers with an empty row and a nil error, and
`Query "query" [u]` panics on `row.Columns[1]`. -/
theorem Query_absent_user_panics (flt : Faults) (rows : List Row) (u : String)
    (hf : flt.getRow = none) (habs : recordsOf (userIdentity rows) u = []) :
    (specStub flt).GetRow (userIdentity rows) "UserIdentity" [stringColumn u]
      = (userIdentity rows, ⟨[]⟩, none) ∧
    Query (specStub flt) (userIdentity rows) "query" [u]
      = Except.error "runtime error: index out of range" := by
  have hfind : rows.find? (fun r => decide (rowKey userIdentityColumns r = [stringColumn u]))
      = none := by
    rw [List.find?_eq_none]
    intro r hr hk
    have : r ∈ recordsOf (userIdentity rows) u := by
      rw [recordsOf_userIdentity]
      exact List.mem_filter.mpr ⟨hr, hk⟩
    rw [habs] at this
    exact absurd this (List.not_mem_nil _)
  have hget : (specStub flt).GetRow (userIdentity rows) "UserIdentity" [stringColumn u]
      = (userIdentity rows, ⟨[]⟩, none) := by
    simp [specStub, specGetRow, hf, userIdentity, hfind]
  exact ⟨hget, Query_panics_on_short_row _ _ _ _ _ hget (by decide)⟩

/-- C4, the code at a failing input: the table holds a record for `alice` and
none for `bob`; the lookup of `bob` returns an empty row with a nil error, and
`Query "query" ["bob"]` does not return an error: it panics on `row.Columns[1]`
(line 180). -/
theorem C4_query_missing_user_panics :
    recordsOf (userIdentity [userRow "alice" "true"]) "bob" = [] ∧
    (specStub noFaults).GetRow (userIdentity [userRow "alice" "true"]) "UserIdentity"
        [stringColumn "bob"] = (userIdentity [userRow "alice" "true"], ⟨[]⟩, none) ∧
    Query (specStub noFaults) (userIdentity [userRow "alice" "true"]) "query" ["bob"]
      = Except.error "runtime error: index out of range" := by
  refine ⟨by decide, by decide, by rfl⟩

/-- C8: the two failure paths of `update`.  (1) On an initialized table holding
a record for `u`, when the delete step succeeds and the insert step fails at the
storage layer, `Invoke "update" [u, s]` returns a nil payload and the error
`Failed inserting row.`, and the table is left with no record for `u` while the
records of every other user are as before: the delete is not rolled back.
(2) Over every stub, when the delete step fails, `update` returns a nil payload
and the error `Failed deleting row.`, and the only storage call it has made is
that `DeleteRow`: the insert is not attempted. -/
theorem C8_update_failure_paths {σ : Type} (flt : Faults) (rows : List Row)
    (stub : ChaincodeStubInterface σ) (st : σ) (log : List StubCall) (u s : String) :
    (∀ e, flt.deleteRow = none → flt.insertRow = some e →
        recordsOf (userIdentity rows) u ≠ [] →
      (Invoke (specStub flt) (userIdentity rows) "update" [u, s]).2
          = (none, some "Failed inserting row.") ∧
      recordsOf (Invoke (specStub flt) (userIdentity rows) "update" [u, s]).1 u = [] ∧
      ∀ v, v ≠ u →
        recordsOf (Invoke (specStub flt) (userIdentity rows) "update" [u, s]).1 v
          = recordsOf (userIdentity rows) v) ∧
    (∀ e, (stub.DeleteRow st "UserIdentity" [stringColumn u]).2 = some e →
      Invoke (traced stub) (st, log) "update" [u, s]
        = (((stub.DeleteRow st "UserIdentity" [stringColumn u]).1,
            log ++ [StubCall.DeleteRow "UserIdentity" [stringColumn u]]),
           none, some "Failed deleting row.")) := by
  have hne : ¬ ("update" = "create") := by decide
  refine ⟨fun e hd hi _ => ?_, fun e he => ?_⟩
  · have hdel := specDeleteRow_userIdentity flt rows [stringColumn u] hd
    have hins := specInsertRow_fault flt
      (userIdentity (rows.filter (fun r => rowKey userIdentityColumns r ≠ [stringColumn u])))
      "UserIdentity" (userRow u s) e hi
    have hupd : Invoke (specStub flt) (userIdentity rows) "update" [u, s]
        = (userIdentity (rows.filter
              (fun r => rowKey userIdentityColumns r ≠ [stringColumn u])),
            none, some "Failed inserting row.") := by
      simp only [Invoke, if_neg hne, if_true, update, specStub, hdel, hins]
    rw [hupd]
    refine ⟨rfl, ?_, fun v hv => ?_⟩
    · rw [recordsOf_userIdentity]
      exact filter_key_filter_ne rows u
    · rw [recordsOf_userIdentity, filter_other_filter_ne rows u v hv, recordsOf_userIdentity]
  · simp only [Invoke, if_neg hne, if_true, update, traced, he]

/-- C8 at a concrete input: the insert fails on a table holding `alice` and
`bob`; the delete fails on the same table. -/
theorem C8_update_failure_paths_witness :
    ((Invoke (specStub ⟨none, some "StoreError", none, none⟩)
        (userIdentity [userRow "alice" "true", userRow "bob" "true"])
        "update" ["alice", "suspended"]).2 = (none, some "Failed inserting row.") ∧
      recordsOf (Invoke (specStub ⟨none, some "StoreError", none, none⟩)
        (userIdentity [userRow "alice" "true", userRow "bob" "true"])
        "update" ["alice", "suspended"]).1 "alice" = [] ∧
      ∀ v, v ≠ "alice" →
        recordsOf (Invoke (specStub ⟨none, some "StoreError", none, none⟩)
          (userIdentity [userRow "alice" "true", userRow "bob" "true"])
          "update" ["alice", "suspended"]).1 v
          = recordsOf (userIdentity [userRow "alice" "true", userRow "bob" "true"]) v) ∧
    Invoke (traced (specStub ⟨none, none, some "StoreError", none⟩))
        (userIdentity [userRow "alice" "true", userRow "bob" "true"], [])
        "update" ["alice", "suspended"]
      = ((((specStub ⟨none, none, some "StoreError", none⟩).DeleteRow
              (userIdentity [userRow "alice" "true", userRow "bob" "true"])
              "UserIdentity" [stringColumn "alice"]).1,
          [] ++ [StubCall.DeleteRow "UserIdentity" [stringColumn "alice"]]),
         none, some "Failed deleting row.") :=
  ⟨(C8_update_failure_paths ⟨none, some "StoreError", none, none⟩
      [userRow "alice" "true", userRow "bob" "true"]
      (specStub ⟨none, none, some "StoreError", none⟩)
      (userIdentity [userRow "alice" "true", userRow "bob" "true"]) []
      "alice" "suspended").1 "StoreError" rfl rfl (by decide),
   (C8_update_failure_paths ⟨none, some "StoreError", none, none⟩
      [userRow "alice" "true", userRow "bob" "true"]
      (specStub ⟨none, none, some "StoreError", none⟩)
      (userIdentity [userRow "alice" "true", userRow "bob" "true"]) []
      "alice" "suspended").2 "StoreError" rfl⟩

/-! ## Every stored row has two columns -/

theorem specInsertRow_cases (flt : Faults) (rows : List Row) (row : Row) :
    (specInsertRow flt (userIdentity rows) "UserIdentity" row).1 = userIdentity rows ∨
    (specInsertRow flt (userIdentity rows) "UserIdentity" row).1
      = userIdentity (rows ++ [row]) := by
  cases hf : flt.insertRow with
  | some e => left; rw [specInsertRow_fault flt _ _ _ e hf]
  | none =>
    by_cases habs : rows.filter (fun r => rowKey userIdentityColumns r
        = rowKey userIdentityColumns row) = []
    · right; rw [specInsertRow_absent flt rows row hf habs]
    · left; rw [specInsertRow_present flt rows row hf habs]

theorem specDeleteRow_cases (flt : Faults) (rows : List Row) (key : List Column) :
    (specDeleteRow flt (userIdentity rows) "UserIdentity" key).1 = userIdentity rows ∨
    (specDeleteRow flt (userIdentity rows) "UserIdentity" key).1
      = userIdentity (rows.filter (fun r => rowKey userIdentityColumns r ≠ key)) := by
  cases hf : flt.deleteRow with
  | some e => left; simp [specDeleteRow, hf]
  | none => right; rw [specDeleteRow_userIdentity flt rows key hf]

theorem TwoColumns_insert (flt : Faults) (st : Store) (u s : String) (h : TwoColumns st) :
    TwoColumns (specInsertRow flt st "UserIdentity" (userRow u s)).1 := by
  obtain ⟨rows, rfl, hrows⟩ := h
  rcases specInsertRow_cases flt rows (userRow u s) with hc | hc
  · rw [hc]; exact ⟨rows, rfl, hrows⟩
  · rw [hc]
    refine ⟨_, rfl, fun r hr => ?_⟩
    rcases List.mem_append.mp hr with hr | hr
    · exact hrows r hr
    · rw [List.mem_singleton.mp hr]; rfl

theorem TwoColumns_delete (flt : Faults) (st : Store) (key : List Column)
    (h : TwoColumns st) : TwoColumns (specDeleteRow flt st "UserIdentity" key).1 := by
  obtain ⟨rows, rfl, hrows⟩ := h
  rcases specDeleteRow_cases flt rows key with hc | hc
  · rw [hc]; exact ⟨rows, rfl, hrows⟩
  · rw [hc]
    exact ⟨_, rfl, fun r hr => hrows r (List.mem_filter.mp hr).1⟩

theorem TwoColumns_create (flt : Faults) (st : Store) (args : List String)
    (h : TwoColumns st) : TwoColumns (create (specStub flt) st args).1 := by
  unfold create
  split
  · next user =>
    have := TwoColumns_insert flt st user "true" h
    simp only [specStub]
    split <;> exact this
  · exact h

theorem TwoColumns_update (flt : Faults) (st : Store) (args : List String)
    (h : TwoColumns st) : TwoColumns (update (specStub flt) st args).1 := by
  unfold update
  split
  · next user state =>
    have hdel := TwoColumns_delete flt st [stringColumn user] h
    simp only [specStub]
    split
    · next st1 e heq => rw [heq] at hdel; exact hdel
    · next st1 heq =>
      rw [heq] at hdel
      have hins := TwoColumns_insert flt st1 user state hdel
      split
      · next st2 _ e heq2 => rw [heq2] at hins; exact hins
      · next st2 _ heq2 => rw [heq2] at hins; exact hins
  · exact h

theorem TwoColumns_Invoke (flt : Faults) (st : Store) (function : String)
    (args : List String) (h : TwoColumns st) :
    TwoColumns (Invoke (specStub flt) st function args).1 := by
  unfold Invoke
  split
  · exact TwoColumns_create flt st args h
  · split
    · exact TwoColumns_update flt st args h
    · exact h

theorem TwoColumns_runInvokes (calls : List (Faults × String × List String)) (st : Store)
    (h : TwoColumns st) : TwoColumns (runInvokes calls st) := by
  induction calls generalizing st with
  | nil => exact h
  | cons c cs ih =>
    simp only [runInvokes, List.foldl_cons]
    exact ih _ (TwoColumns_Invoke c.1 st c.2.1 c.2.2 h)

/-- For every table reached from the empty initialized table by a sequence of
`Invoke` calls and every user `u` the table holds a record for, a lookup that
returns without error returns a row of exactly two columns, and `Query` returns
without panicking. -/
theorem Query_stored_user_in_bounds (calls : List (Faults × String × List String))
    (flt : Faults) (u : String) (st1 : Store) (row : Row)
    (hrec : recordsOf (runInvokes calls (userIdentity [])) u ≠ [])
    (h : (specStub flt).GetRow (runInvokes calls (userIdentity [])) "UserIdentity"
        [stringColumn u] = (st1, row, none)) :
    row.Columns.length = 2 ∧
    ∃ resp, Query (specStub flt) (runInvokes calls (userIdentity [])) "query" [u]
      = Except.ok resp := by
  obtain ⟨rows, hst, hrows⟩ := TwoColumns_runInvokes calls (userIdentity [])
    ⟨[], rfl, fun _ hr => absurd hr (List.not_mem_nil _)⟩
  have hlen : row.Columns.length = 2 := by
    rw [hst] at h hrec
    simp only [specStub, specGetRow, userIdentity] at h
    split at h
    · simp at h
    · simp only [ne_eq, not_true_eq_false, if_false] at h
      split at h
      · next r hfind =>
        simp only [Prod.mk.injEq, and_true] at h
        rw [← h.2]
        exact hrows r (List.mem_of_find?_eq_some hfind)
      · next hnone =>
        exfalso
        apply hrec
        rw [recordsOf_userIdentity, List.filter_eq_nil_iff]
        intro r hr
        exact List.find?_eq_none.mp hnone r hr
  refine ⟨hlen, ?_⟩
  have hget : ∃ c, row.Columns.get? 1 = some c := by
    match hc : row.Columns, hlen with
    | [_, c], _ => exact ⟨c, rfl⟩
  obtain ⟨c, hc⟩ := hget
  simp only [Query, ne_eq, not_true_eq_false, if_false, h, hc]
  exact ⟨_, rfl⟩

/-- C10, the code at a failing input: on the table reached from the empty
initialized table by `Invoke "create" ["alice"]`, the row lookup of
`Query "query" ["zed"]` returns without error a row with no column, so the index
`row.Columns[1]` is out of range and `Query` panics. -/
theorem C10_query_index_out_of_range :
    runInvokes [(noFaults, "create", ["alice"])] (userIdentity [])
      = userIdentity [Row.mk [Column.mk (ColumnValue.String_ "alice"),
          Column.mk (ColumnValue.String_ "true")]] ∧
    ((specStub noFaults).GetRow
        (runInvokes [(noFaults, "create", ["alice"])] (userIdentity []))
        "UserIdentity" [stringColumn "zed"]).2 = (Row.mk [], none) ∧
    (Row.mk []).Columns.length < 2 ∧
    Query (specStub noFaults)
        (runInvokes [(noFaults, "create", ["alice"])] (userIdentity []))
        "query" ["zed"] = Except.error "runtime error: index out of range" := by
  refine ⟨by decide, by decide, by decide, by rfl⟩

end StonePaper
